import Mathlib

/-!
Verification of the account-nuke orchestrator (scripts/nuke_account/main.py):
a shallow embedding of its data model, transport retry loop, pagination
loops, and per-kind deletion procedures, together with theorems checking
the natural-language specification against this embedding.

Modelling conventions, used throughout:
- optional string fields of JSON objects are modelled as `String`, with `""`
  standing for both a missing key and an empty value (Python treats both as
  falsy, and the code only ever tests truthiness of these fields);
- the transport layer (`_request_json`) either returns normally or raises
  `RuntimeError`; at the call sites of the deletion procedures it is
  abstracted as `Transport : Req → Option String`, where `none` means the
  call returned and `some e` means it raised with message `e` (the retry
  loop itself is embedded separately as `request_json`);
- listing calls are abstracted as per-kind oracles returning
  `Except String page` (`.error e` = the listing call raised);
- the `asyncio` task fan-out followed by `asyncio.gather` is embedded as a
  sequential fold: every dispatched task runs to completion before the next
  page is fetched, and the per-task statistics updates commute, so the final
  counters and the set of issued requests are the same;
- `while` loops whose number of iterations depends on backend data are
  embedded with an explicit fuel argument and return `none` when the fuel
  runs out; theorems about a finished run hypothesise a `some` result.
-/

set_option maxRecDepth 100000

namespace NukeAccount

/-- Python truthiness for our string-encoded optional fields. -/
def truthy (s : String) : Bool := s != ""

/-- Python `a or b` on string-encoded optional fields. -/
def orS (a b : String) : String := if a = "" then b else a

/- Constants from the top of the source file. -/

def RETRY_STATUS_CODES : List Nat := [429, 500, 502, 503, 504]

def ACTION_PAGE_SIZE : Nat := 100

def ACTION_DELETE_BATCH_SIZE : Nat := 300

def ASSET_PAGE_SIZE : Nat := 100

def INVESTIGATION_PAGE_SIZE : Nat := 100

def COMPANY_PAGE_SIZE : Nat := 100

def CREDENTIAL_PAGE_SIZE : Nat := 100

def OSHA_PAGE_SIZE : Nat := 100

def OSHA_MAX_PAGE_NUMBER : Nat := 95

def SITE_PAGE_SIZE : Nat := 500

def SITE_DELETE_BATCH_SIZE : Nat := 40

def LIST_CONCURRENCY : Nat := 8

def DELETE_FLUSH_THRESHOLD : Nat := 400

/-- The `ResourceStats` dataclass. `batches` is the `batches` field. -/
structure ResourceStats where
  name : String
  fetched : Nat
  deleted : Nat
  failed : Nat
  batches : Nat
  errors : List String
deriving Repr, DecidableEq

/-- `ResourceStats(name)`: the dataclass defaults (all counters 0, no errors). -/
def ResourceStats.init (name : String) : ResourceStats := ⟨name, 0, 0, 0, 0, []⟩

/-- `ResourceStats.record_failure`: `self.failed += count; self.errors.append(message)`.
Note that the message is stored verbatim and the list is never trimmed. -/
def ResourceStats.record_failure (s : ResourceStats) (message : String) (count : Nat) :
    ResourceStats :=
  { s with failed := s.failed + count, errors := s.errors ++ [message] }

/-- One transport-level call issued by a deletion procedure, as it reaches
`_request_json`: a POST with a json body carrying a list of ids (the archive
transitions and the actions bulk delete), or a DELETE with query params. -/
inductive Req where
  | post (path : String) (ids : List String)
  | del (path : String) (params : List (String × String))
deriving Repr, DecidableEq

/-- Abstraction of `_request_json` at a deletion call site: `none` = the call
returned normally, `some e` = it raised `RuntimeError(e)` (after exhausting
its retries or on a non-transient status). -/
def Transport : Type := Req → Option String

/-- `_delete_single`: inside one `try`, first POST the archive path when one
is given, then DELETE the path; `deleted += 1` on success.  Any exception,
including one raised by the archive call, lands in the single `except`
branch, which records a failure — so an archive failure skips the delete.
The second component is the list of requests actually issued, in order. -/
def delete_single (t : Transport) (path : String) (stats : ResourceStats)
    (label : String) (archive_path : Option String) : ResourceStats × List Req :=
  match archive_path with
  | some ap =>
      match t (Req.post ap []) with
      | some e => (stats.record_failure (label ++ ": " ++ e) 1, [Req.post ap []])
      | none =>
          match t (Req.del path []) with
          | none =>
              ({ stats with deleted := stats.deleted + 1 },
               [Req.post ap [], Req.del path []])
          | some e =>
              (stats.record_failure (label ++ ": " ++ e) 1,
               [Req.post ap [], Req.del path []])
  | none =>
      match t (Req.del path []) with
      | none => ({ stats with deleted := stats.deleted + 1 }, [Req.del path []])
      | some e => (stats.record_failure (label ++ ": " ++ e) 1, [Req.del path []])

/-- `_delete_with_params`: one DELETE with query params; `deleted += 1` on
success, `record_failure` on an exception. -/
def delete_with_params (t : Transport) (path : String) (params : List (String × String))
    (stats : ResourceStats) (label : String) : ResourceStats × List Req :=
  match t (Req.del path params) with
  | none => ({ stats with deleted := stats.deleted + 1 }, [Req.del path params])
  | some e => (stats.record_failure (label ++ ": " ++ e) 1, [Req.del path params])

/-- `_delete_actions_batch`: empty batches issue nothing; otherwise one POST
carrying all ids, counting the whole batch deleted on success and the whole
batch failed (one error entry) on an exception. -/
def delete_actions_batch (t : Transport) (action_ids : List String)
    (stats : ResourceStats) : ResourceStats × List Req :=
  if action_ids.isEmpty then (stats, [])
  else
    match t (Req.post "/tasks/v1/actions/delete" action_ids) with
    | none =>
        ({ stats with deleted := stats.deleted + action_ids.length },
         [Req.post "/tasks/v1/actions/delete" action_ids])
    | some e =>
        (stats.record_failure
            ("actions " ++ toString (action_ids.take 3) ++ "...: " ++ e)
            action_ids.length,
         [Req.post "/tasks/v1/actions/delete" action_ids])

/-- Recursion core of `chunked`.  The Python generator steps through
`range(0, len(items), size)`, dropping `size` elements per step; the fuel
argument is set to `items.length`, which bounds the number of steps whenever
`size > 0` (a `size` of 0 would raise in Python; here it yields `[]`). -/
def chunkedGo : Nat → List String → Nat → List (List String)
  | 0, _, _ => []
  | Nat.succ _, [], _ => []
  | Nat.succ f, x :: xs, size =>
      if size = 0 then []
      else (x :: xs).take size :: chunkedGo f ((x :: xs).drop size) size

/-- `chunked(items, size)`: successive slices `items[i : i + size]`. -/
def chunked (items : List String) (size : Nat) : List (List String) :=
  chunkedGo items.length items size

/-- The per-page loop `for batch in chunked(ids, ...)` of `delete_actions`:
each batch bumps `stats.batches` at task creation and then runs
`_delete_actions_batch`; the subsequent `gather` drains them all. -/
def run_action_batches (t : Transport) :
    List (List String) → ResourceStats → ResourceStats × List Req
  | [], stats => (stats, [])
  | batch :: rest, stats =>
      let step := delete_actions_batch t batch { stats with batches := stats.batches + 1 }
      let restRun := run_action_batches t rest step.1
      (restRun.1, step.2 ++ restRun.2)

/-- `build_next_page`: a falsy `next_path` means no further page, an
absolute link passes through, a relative one is glued to the base url with a
leading slash added when missing. -/
def build_next_page (base_url : String) (next_path : String) : Option String :=
  if next_path = "" then none
  else if next_path.startsWith "http" then some next_path
  else if next_path.startsWith "/" then some (base_url ++ next_path)
  else some (base_url ++ "/" ++ next_path)

/-- One element of the `data` array of a feed listing response
(`/feed/inspections`, `/feed/templates`); only its `id` is read. -/
structure FeedItem where
  id : String
deriving Repr, DecidableEq

/-- A feed listing response: the `data` array plus `metadata.next_page`. -/
structure FeedPage where
  data : List FeedItem
  next_page : String
deriving Repr, DecidableEq

/-- The id of a feed item when it is truthy (`if not inspection_id: continue`
skips the others). -/
def live_id (i : FeedItem) : Option String :=
  if i.id = "" then none else some i.id

/-- The truthy ids of a feed page, in listing order. -/
def live_ids (items : List FeedItem) : List String := items.filterMap live_id

/-- The task fan-out of `delete_inspections`: one `_delete_single` per listed
inspection whose `id` is truthy, each delete preceded by that inspection's
archive transition.  The dispatched tasks are all drained by the `gather`
that follows, so the fold returns the stats after every task finished. -/
def inspections_deletes (t : Transport) :
    List FeedItem → ResourceStats → ResourceStats × List Req
  | [], stats => (stats, [])
  | item :: rest, stats =>
      if item.id = "" then inspections_deletes t rest stats
      else
        let step := delete_single t ("/inspections/v1/inspections/" ++ item.id) stats
            ("inspection " ++ item.id)
            (some ("/inspections/v1/inspections/" ++ item.id ++ "/archive"))
        let restRun := inspections_deletes t rest step.1
        (restRun.1, step.2 ++ restRun.2)

/-- The page loop of `delete_inspections`: GET the current url, count every
element of `data` as fetched, dispatch and drain the delete tasks, then
follow `metadata.next_page`.  A listing error propagates out of the method
(there is no `except` around the loop); `none` means the fuel ran out before
the feed was exhausted. -/
def delete_inspections_loop (listGet : String → Except String FeedPage) (t : Transport)
    (base_url : String) :
    Nat → String → ResourceStats → List Req →
      Option (Except String (ResourceStats × List Req))
  | 0, _, _, _ => none
  | Nat.succ fuel, url, stats, trace =>
      match listGet url with
      | .error e => some (.error e)
      | .ok page =>
          let stats1 := { stats with fetched := stats.fetched + page.data.length }
          let run := inspections_deletes t page.data stats1
          match build_next_page base_url page.next_page with
          | none => some (.ok (run.1, trace ++ run.2))
          | some nxt =>
              delete_inspections_loop listGet t base_url fuel nxt run.1 (trace ++ run.2)

/-- `delete_inspections`: start at `{base_url}/feed/inspections` with fresh
stats. -/
def delete_inspections (listGet : String → Except String FeedPage) (t : Transport)
    (base_url : String) (fuel : Nat) :
    Option (Except String (ResourceStats × List Req)) :=
  delete_inspections_loop listGet t base_url fuel (base_url ++ "/feed/inspections")
    (ResourceStats.init "inspections") []

/-- One element of the `actions` array of a `/tasks/v1/actions/list`
response; the delete id is
`action["task"]["task_id"] or action["task_id"] or action["id"]`. -/
structure ActionItem where
  task_task_id : String
  task_id : String
  id : String
deriving Repr, DecidableEq

/-- The `or`-chain picking the id of one listed action. -/
def ActionItem.actionId (a : ActionItem) : String :=
  orS a.task_task_id (orS a.task_id a.id)

/-- The id-extraction loop of `delete_actions`: keep the truthy ids, in
order.  Note there is no seen-set here: duplicates are kept. -/
def actions_extract_ids (actions : List ActionItem) : List String :=
  actions.filterMap (fun a => if a.actionId = "" then none else some a.actionId)

/-- Result of a finished `delete_actions` run.  `listed` records the
extracted ids page after page (the code keeps them only in the local `ids`
variable; they are carried here so theorems can relate the issued bulk
deletes to the listing). -/
structure ActionsRun where
  stats : ResourceStats
  listed : List String
  trace : List Req
deriving Repr, DecidableEq

/-- The offset loop of `delete_actions`: POST the listing at the current
offset, advance the offset by `ACTION_PAGE_SIZE`, extract the truthy ids,
count them fetched, chunk them into `ACTION_DELETE_BATCH_SIZE` batches,
drain the batch tasks, and stop after the first page shorter than
`ACTION_PAGE_SIZE`. -/
def delete_actions_loop (listPost : Nat → Except String (List ActionItem)) (t : Transport) :
    Nat → Nat → ResourceStats → List String → List Req →
      Option (Except String ActionsRun)
  | 0, _, _, _, _ => none
  | Nat.succ fuel, offset, stats, listed, trace =>
      match listPost offset with
      | .error e => some (.error e)
      | .ok actions =>
          let ids := actions_extract_ids actions
          let stats1 := { stats with fetched := stats.fetched + ids.length }
          let run := run_action_batches t (chunked ids ACTION_DELETE_BATCH_SIZE) stats1
          if actions.length < ACTION_PAGE_SIZE then
            some (.ok ⟨run.1, listed ++ ids, trace ++ run.2⟩)
          else
            delete_actions_loop listPost t fuel (offset + ACTION_PAGE_SIZE) run.1
              (listed ++ ids) (trace ++ run.2)

/-- `delete_actions`: start at offset 0 with fresh stats. -/
def delete_actions (listPost : Nat → Except String (List ActionItem)) (t : Transport)
    (fuel : Nat) : Option (Except String ActionsRun) :=
  delete_actions_loop listPost t fuel 0 (ResourceStats.init "actions") [] []

/-- The action ids carried by the bulk delete calls of a trace, in order. -/
def submitted_action_ids (trace : List Req) : List String :=
  (trace.map (fun r =>
    match r with
    | Req.post p ids => if p = "/tasks/v1/actions/delete" then ids else []
    | Req.del _ _ => [])).flatten

/-- One element of the `assets` array; only its `id` is read. -/
structure AssetItem where
  id : String
deriving Repr, DecidableEq

/-- An `/assets/v1/assets/list` response. -/
structure AssetsPage where
  assets : List AssetItem
  next_page_token : String
deriving Repr, DecidableEq

/-- The per-page dedup loop of `delete_assets`: walk the listed assets,
skipping falsy ids and ids already in `seen_ids`; a fresh id is added to
the seen-set and collected for deletion.  Returns the grown seen-set and
the fresh ids in listing order. -/
def assets_dedup (seen : List String) : List AssetItem → List String × List String
  | [] => (seen, [])
  | a :: rest =>
      if a.id = "" ∨ a.id ∈ seen then assets_dedup seen rest
      else
        let r := assets_dedup (seen ++ [a.id]) rest
        (r.1, a.id :: r.2)

/-- The delete fan-out of one assets page: `_delete_single` with the archive
transition for each fresh id. -/
def assets_deletes (t : Transport) : List String → ResourceStats → ResourceStats × List Req
  | [], stats => (stats, [])
  | id :: rest, stats =>
      let step := delete_single t ("/assets/v1/assets/" ++ id) stats ("asset " ++ id)
          (some ("/assets/v1/assets/" ++ id ++ "/archive"))
      let restRun := assets_deletes t rest step.1
      (restRun.1, step.2 ++ restRun.2)

/-- Result of a finished `delete_assets` run; `submitted` records the ids
for which a delete task was dispatched, in order. -/
structure AssetsRun where
  stats : ResourceStats
  submitted : List String
  trace : List Req
deriving Repr, DecidableEq

/-- One token-paginated phase of `delete_assets` (the inner `while True`),
for one value of `state_filter`; `seen_ids` persists across pages and
phases. -/
def delete_assets_phase (listPost : Option String → String → Except String AssetsPage)
    (t : Transport) (state_filter : Option String) :
    Nat → String → List String → ResourceStats → List String → List Req →
      Option (Except String (List String × ResourceStats × List String × List Req))
  | 0, _, _, _, _, _ => none
  | Nat.succ fuel, page_token, seen, stats, submitted, trace =>
      match listPost state_filter page_token with
      | .error e => some (.error e)
      | .ok page =>
          let d := assets_dedup seen page.assets
          let stats1 := { stats with fetched := stats.fetched + d.2.length }
          let run := assets_deletes t d.2 stats1
          if page.next_page_token = "" then
            some (.ok (d.1, run.1, submitted ++ d.2, trace ++ run.2))
          else
            delete_assets_phase listPost t state_filter fuel page.next_page_token d.1
              run.1 (submitted ++ d.2) (trace ++ run.2)

/-- `delete_assets`: the `for state_filter in (None, "ASSET_STATE_ARCHIVED")`
loop — one token-paginated phase per filter, threading `seen_ids` and the
stats through both. -/
def delete_assets (listPost : Option String → String → Except String AssetsPage)
    (t : Transport) (fuel : Nat) : Option (Except String AssetsRun) :=
  match delete_assets_phase listPost t none fuel "" [] (ResourceStats.init "assets") [] [] with
  | none => none
  | some (.error e) => some (.error e)
  | some (.ok (seen, stats, submitted, trace)) =>
      match delete_assets_phase listPost t (some "ASSET_STATE_ARCHIVED") fuel ""
          seen stats submitted trace with
      | none => none
      | some (.error e) => some (.error e)
      | some (.ok (_, stats2, submitted2, trace2)) =>
          some (.ok ⟨stats2, submitted2, trace2⟩)

/-- One element of `latest_document_versions`, with the fallback fields the
code reads for the document type and the subject user. -/
structure CredentialVersion where
  document_id : String
  document_type_id : String
  document_type_nested_id : String
  subject_user_id : String
  subject_user_nested_id : String
  subject_user_nested_user_id : String
deriving Repr, DecidableEq

/-- `doc_type = version.get("document_type_id") or
version.get("document_type", \x7b\x7d).get("id")`. -/
def CredentialVersion.docType (v : CredentialVersion) : String :=
  orS v.document_type_id v.document_type_nested_id

/-- `user_id = version.get("subject_user_id") or user_info.get("id") or
user_info.get("user_id")`. -/
def CredentialVersion.userId (v : CredentialVersion) : String :=
  orS v.subject_user_id (orS v.subject_user_nested_id v.subject_user_nested_user_id)

/-- Processing of one listed credential version: when any of the three key
fields is falsy, record a missing-identifiers failure and issue no request;
otherwise DELETE by the composite query key. -/
def credentials_process_version (t : Transport) (v : CredentialVersion)
    (stats : ResourceStats) : ResourceStats × List Req :=
  if v.document_id ≠ "" ∧ v.docType ≠ "" ∧ v.userId ≠ "" then
    delete_with_params t "/credentials/v1/credential"
      [("document_id", v.document_id), ("document_type_id", v.docType),
       ("user_id", v.userId)]
      stats ("credential " ++ v.document_id)
  else
    (stats.record_failure
      ("credential missing identifiers: doc=" ++ v.document_id ++ ", type=" ++ v.docType
        ++ ", user=" ++ v.userId) 1, [])

/-- The task fan-out over one credentials page. -/
def credentials_processes (t : Transport) :
    List CredentialVersion → ResourceStats → ResourceStats × List Req
  | [], stats => (stats, [])
  | v :: rest, stats =>
      let step := credentials_process_version t v stats
      let restRun := credentials_processes t rest step.1
      (restRun.1, step.2 ++ restRun.2)

/-- A `/credentials/v1/credentials` response page. -/
structure CredentialsPage where
  latest_document_versions : List CredentialVersion
  next_page_token : String
deriving Repr, DecidableEq

/-- The token loop of `delete_credentials`. -/
def delete_credentials_loop (listPost : String → Except String CredentialsPage)
    (t : Transport) :
    Nat → String → ResourceStats → List Req →
      Option (Except String (ResourceStats × List Req))
  | 0, _, _, _ => none
  | Nat.succ fuel, page_token, stats, trace =>
      match listPost page_token with
      | .error e => some (.error e)
      | .ok page =>
          let stats1 := { stats with
            fetched := stats.fetched + page.latest_document_versions.length }
          let run := credentials_processes t page.latest_document_versions stats1
          if page.next_page_token = "" then some (.ok (run.1, trace ++ run.2))
          else
            delete_credentials_loop listPost t fuel page.next_page_token run.1
              (trace ++ run.2)

/-- `delete_credentials`: start with no page token and fresh stats. -/
def delete_credentials (listPost : String → Except String CredentialsPage)
    (t : Transport) (fuel : Nat) : Option (Except String (ResourceStats × List Req)) :=
  delete_credentials_loop listPost t fuel "" (ResourceStats.init "credentials") []

/-- One element of `contractor_company_list`. -/
structure CompanyItem where
  company_id : String
  company_type_nested_id : String
  company_type_id : String
deriving Repr, DecidableEq

/-- `(company.get("company_type") or \x7b\x7d).get("id") or
company.get("company_type_id")`. -/
def CompanyItem.companyType (c : CompanyItem) : String :=
  orS c.company_type_nested_id c.company_type_id

/-- Processing of one listed company: a falsy `company_id` silently skips
the item (`continue` — no failure recorded, no request); otherwise DELETE
by `company_id`, adding `company_type_id` to the query only when present. -/
def companies_process_company (t : Transport) (c : CompanyItem)
    (stats : ResourceStats) : ResourceStats × List Req :=
  if c.company_id = "" then (stats, [])
  else
    delete_with_params t "/companies/v1beta/company"
      (("company_id", c.company_id) ::
        (if c.companyType ≠ "" then [("company_type_id", c.companyType)] else []))
      stats ("company " ++ c.company_id)

/-- The task fan-out over one companies page. -/
def companies_processes (t : Transport) :
    List CompanyItem → ResourceStats → ResourceStats × List Req
  | [], stats => (stats, [])
  | c :: rest, stats =>
      let step := companies_process_company t c stats
      let restRun := companies_processes t rest step.1
      (restRun.1, step.2 ++ restRun.2)

/-- A `/companies/v1beta/companies` response page. -/
structure CompaniesPage where
  contractor_company_list : List CompanyItem
  next_page_token : String
deriving Repr, DecidableEq

/-- The token loop of `delete_companies`. -/
def delete_companies_loop (listPost : String → Except String CompaniesPage)
    (t : Transport) :
    Nat → String → ResourceStats → List Req →
      Option (Except String (ResourceStats × List Req))
  | 0, _, _, _ => none
  | Nat.succ fuel, page_token, stats, trace =>
      match listPost page_token with
      | .error e => some (.error e)
      | .ok page =>
          let stats1 := { stats with
            fetched := stats.fetched + page.contractor_company_list.length }
          let run := companies_processes t page.contractor_company_list stats1
          if page.next_page_token = "" then some (.ok (run.1, trace ++ run.2))
          else
            delete_companies_loop listPost t fuel page.next_page_token run.1
              (trace ++ run.2)

/-- `delete_companies`: start with no page token and fresh stats. -/
def delete_companies (listPost : String → Except String CompaniesPage)
    (t : Transport) (fuel : Nat) : Option (Except String (ResourceStats × List Req)) :=
  delete_companies_loop listPost t fuel "" (ResourceStats.init "companies") []

/-- One element of the `results` array of an OSHA cases response; the
delete id is `case.get("case_id") or case.get("id")`. -/
structure OshaCase where
  case_id : String
  id : String
deriving Repr, DecidableEq

/-- The `or`-chain picking the id of one listed case. -/
def OshaCase.caseId (c : OshaCase) : String := orS c.case_id c.id

/-- An `/incidents/v1/osha/cases` response page. -/
structure OshaPage where
  results : List OshaCase
  next_page_token : String
deriving Repr, DecidableEq

/-- The truthy case ids of a page, in order (falsy ids are skipped). -/
def osha_extract_ids (results : List OshaCase) : List String :=
  results.filterMap (fun c => if c.caseId = "" then none else some c.caseId)

/-- The delete fan-out of one processed OSHA page (no archive step). -/
def osha_deletes (t : Transport) : List String → ResourceStats → ResourceStats × List Req
  | [], stats => (stats, [])
  | id :: rest, stats =>
      let step := delete_single t ("/incidents/v1/osha/cases/" ++ id) stats
          ("osha case " ++ id) none
      let restRun := osha_deletes t rest step.1
      (restRun.1, step.2 ++ restRun.2)

/-- A processed listing fetch of the OSHA loop: a page-number fetch or a
token fetch, with the case ids it contributed, in processing order. -/
inductive OshaEvent where
  | pageFetch (page_number : Nat) (ids : List String)
  | tokenFetch (token : String) (ids : List String)
deriving Repr, DecidableEq

/-- The mutable state of the `delete_osha_cases` loop.  The in-flight queue
holds the page numbers whose fetch tasks were created; awaiting a task is
applying the (deterministic) listing oracle when the entry is popped. -/
structure OshaState where
  page_number : Nat
  in_flight : List Nat
  token_mode : Bool
  next_token : String
  stats : ResourceStats
  events : List OshaEvent
  reqs : List Req
deriving Repr, DecidableEq

/-- Result of a finished `delete_osha_cases` run. -/
structure OshaRun where
  stats : ResourceStats
  events : List OshaEvent
  reqs : List Req
deriving Repr, DecidableEq

/-- Iterations of the inner fill loop: each turn appends the next page
number to the in-flight queue. -/
def osha_fillGo : Nat → List Nat → Nat → List Nat × Nat
  | 0, infl, pn => (infl, pn)
  | Nat.succ f, infl, pn => osha_fillGo f (infl ++ [pn]) (pn + 1)

/-- The `while len(in_flight) < self.list_concurrency and not token_mode`
fill loop: when not in token mode it tops the queue up to `conc` entries,
which takes exactly `conc - len` turns. -/
def osha_fill (conc : Nat) (infl : List Nat) (pn : Nat) (token_mode : Bool) :
    List Nat × Nat :=
  if token_mode then (infl, pn) else osha_fillGo (conc - infl.length) infl pn

/-- One iteration either finishes the run (`break` / a raised listing
error) or continues with a new state. -/
inductive OshaStep where
  | done (r : Except String OshaRun)
  | next (st : OshaState)
deriving Repr

/-- The `if token_mode and next_token:` tail of one loop iteration: fetch
by token, process the page, refresh the token, and stop when it vanishes. -/
def osha_token_branch (byToken : String → Except String OshaPage) (t : Transport)
    (st : OshaState) : OshaStep :=
  if st.token_mode = true ∧ st.next_token ≠ "" then
    match byToken st.next_token with
    | .error e => .done (.error e)
    | .ok page =>
        let ids := osha_extract_ids page.results
        let stats1 := { st.stats with fetched := st.stats.fetched + page.results.length }
        let run := osha_deletes t ids stats1
        let events1 := st.events ++ [OshaEvent.tokenFetch st.next_token ids]
        let reqs1 := st.reqs ++ run.2
        if page.next_page_token = "" then .done (.ok ⟨run.1, events1, reqs1⟩)
        else
          .next ⟨st.page_number, st.in_flight, st.token_mode, page.next_page_token,
            run.1, events1, reqs1⟩
  else .next st

/-- One iteration of the outer `while True` loop of `delete_osha_cases`:
fill the in-flight queue, break when it is empty outside token mode, pop
and process the lowest in-flight page (counting all results fetched,
deleting the truthy ids, merging the token via `or`, switching to token
mode — or breaking — after a short page or page `OSHA_MAX_PAGE_NUMBER`),
then run the token branch. -/
def osha_step (byNumber : Nat → Except String OshaPage)
    (byToken : String → Except String OshaPage) (t : Transport) (conc : Nat)
    (st : OshaState) : OshaStep :=
  let fill := osha_fill conc st.in_flight st.page_number st.token_mode
  match fill.1 with
  | [] =>
      if st.token_mode = false then .done (.ok ⟨st.stats, st.events, st.reqs⟩)
      else
        osha_token_branch byToken t { st with in_flight := [], page_number := fill.2 }
  | current :: rest =>
      match byNumber current with
      | .error e => .done (.error e)
      | .ok page =>
          let ids := osha_extract_ids page.results
          let stats1 := { st.stats with fetched := st.stats.fetched + page.results.length }
          let run := osha_deletes t ids stats1
          let events1 := st.events ++ [OshaEvent.pageFetch current ids]
          let reqs1 := st.reqs ++ run.2
          let nt := orS page.next_page_token st.next_token
          let st1 : OshaState := ⟨fill.2, rest, st.token_mode, nt, run.1, events1, reqs1⟩
          if page.results.length < OSHA_PAGE_SIZE ∨ OSHA_MAX_PAGE_NUMBER ≤ current then
            let tm := nt ≠ ""
            if tm = false ∧ page.results.length < OSHA_PAGE_SIZE then
              .done (.ok ⟨run.1, events1, reqs1⟩)
            else osha_token_branch byToken t { st1 with token_mode := tm }
          else osha_token_branch byToken t st1

/-- The fueled outer loop of `delete_osha_cases`. -/
def osha_loop (byNumber : Nat → Except String OshaPage)
    (byToken : String → Except String OshaPage) (t : Transport) (conc : Nat) :
    Nat → OshaState → Option (Except String OshaRun)
  | 0, _ => none
  | Nat.succ fuel, st =>
      match osha_step byNumber byToken t conc st with
      | .done r => some r
      | .next st1 => osha_loop byNumber byToken t conc fuel st1

/-- The initial state of `delete_osha_cases`: page number 1, nothing in
flight, token mode off, no token, fresh stats. -/
def osha_init : OshaState := ⟨1, [], false, "", ResourceStats.init "osha_cases", [], []⟩

/-- `delete_osha_cases`, parameterized by the listing concurrency. -/
def delete_osha_cases (byNumber : Nat → Except String OshaPage)
    (byToken : String → Except String OshaPage) (t : Transport) (conc fuel : Nat) :
    Option (Except String OshaRun) :=
  osha_loop byNumber byToken t conc fuel osha_init

/-- Folder data: the `id` and the raw `deleted` value (`None` models a
missing key; the code tests `folder_data.get("deleted") is True`). -/
structure Folder where
  id : String
  deleted : Option Bool
deriving Repr, DecidableEq

/-- One element of the `folders` array:
`folder_data = folder_entry.get("folder") or folder_entry` — the nested
folder object when present, else the entry itself read as folder data.
(The `ancestors` field is read into an unused local and is omitted.) -/
structure FolderEntry where
  folder : Option Folder
  entry_data : Folder
deriving Repr, DecidableEq

/-- The `folder_data` of one entry. -/
def FolderEntry.folderData (e : FolderEntry) : Folder := e.folder.getD e.entry_data

/-- A `/directory/v1/folders/search` response page. -/
structure SitesPage where
  folders : List FolderEntry
  next_page_token : String
deriving Repr, DecidableEq

/-- The `/directory/v1/folders/search` request body built by `delete_sites`;
`include_deleted_folders` is always sent as `True`. -/
structure SitesListPayload where
  limit : Nat
  include_deleted_folders : Bool
  page_token : String
deriving Repr, DecidableEq

/-- The listing payload for one page fetch of `delete_sites`. -/
def sites_list_payload (page_token : String) : SitesListPayload :=
  ⟨SITE_PAGE_SIZE, true, page_token⟩

/-- The client-side filter of one listed entry: kept when the id is truthy
and `deleted is True` does not hold. -/
def site_live_id (e : FolderEntry) : Option String :=
  if e.folderData.id ≠ "" ∧ ¬(e.folderData.deleted = some true) then some e.folderData.id
  else none

/-- The kept folder ids of a listing, in order. -/
def site_live_ids (folders : List FolderEntry) : List String :=
  folders.filterMap site_live_id

/-- `_delete_site_batch`: empty batches issue nothing; otherwise one DELETE
of `/directory/v1/folders` carrying `cascade_up` and one `folder_ids` param
per folder, counting the whole batch deleted or failed together. -/
def delete_site_batch (t : Transport) (folder_ids : List String)
    (stats : ResourceStats) (cascade_up : Bool) : ResourceStats × List Req :=
  if folder_ids.isEmpty then (stats, [])
  else
    let params := ("cascade_up", if cascade_up then "true" else "false")
        :: folder_ids.map (fun f => ("folder_ids", f))
    match t (Req.del "/directory/v1/folders" params) with
    | none =>
        ({ stats with deleted := stats.deleted + folder_ids.length },
         [Req.del "/directory/v1/folders" params])
    | some e =>
        (stats.record_failure
            ("sites " ++ toString (folder_ids.take 3) ++ "...: " ++ e)
            folder_ids.length,
         [Req.del "/directory/v1/folders" params])

/-- The per-page batch fan-out of `delete_sites` (`cascade_up=True`),
bumping `stats.batches` per batch. -/
def run_site_batches (t : Transport) :
    List (List String) → ResourceStats → ResourceStats × List Req
  | [], stats => (stats, [])
  | batch :: rest, stats =>
      let step := delete_site_batch t batch { stats with batches := stats.batches + 1 } true
      let restRun := run_site_batches t rest step.1
      (restRun.1, step.2 ++ restRun.2)

/-- Result of a finished `delete_sites` run; `listed` records every folder
entry returned by the listing and `submitted` the ids handed to the batch
fan-out, in order. -/
structure SitesRun where
  stats : ResourceStats
  listed : List FolderEntry
  submitted : List String
  trace : List Req
deriving Repr, DecidableEq

/-- The token loop of `delete_sites`. -/
def delete_sites_loop (listSearch : SitesListPayload → Except String SitesPage)
    (t : Transport) :
    Nat → String → ResourceStats → List FolderEntry → List String → List Req →
      Option (Except String SitesRun)
  | 0, _, _, _, _, _ => none
  | Nat.succ fuel, page_token, stats, listed, submitted, trace =>
      match listSearch (sites_list_payload page_token) with
      | .error e => some (.error e)
      | .ok page =>
          let ids := site_live_ids page.folders
          let stats1 := { stats with fetched := stats.fetched + ids.length }
          let run := run_site_batches t (chunked ids SITE_DELETE_BATCH_SIZE) stats1
          if page.next_page_token = "" then
            some (.ok ⟨run.1, listed ++ page.folders, submitted ++ ids, trace ++ run.2⟩)
          else
            delete_sites_loop listSearch t fuel page.next_page_token run.1
              (listed ++ page.folders) (submitted ++ ids) (trace ++ run.2)

/-- `delete_sites`: start with no page token and fresh stats. -/
def delete_sites (listSearch : SitesListPayload → Except String SitesPage)
    (t : Transport) (fuel : Nat) : Option (Except String SitesRun) :=
  delete_sites_loop listSearch t fuel "" (ResourceStats.init "sites") [] [] []

/-- The folder ids carried by the bulk folder-delete calls of a trace. -/
def sites_req_ids (trace : List Req) : List String :=
  (trace.map (fun r =>
    match r with
    | Req.del p params =>
        if p = "/directory/v1/folders" then
          params.filterMap (fun q => if q.1 = "folder_ids" then some q.2 else none)
        else []
    | Req.post _ _ => [])).flatten

/-- A transport-level response as `_request_json` observes one attempt:
an HTTP reply — status, the `Retry-After` header value when one is present,
body text — or an `aiohttp.ClientError`.  The retry loop never reads the
`retry_after` field. -/
inductive HttpResponse where
  | reply (status : Nat) (retry_after : Option Nat) (text : String)
  | clientError (message : String)
deriving Repr, DecidableEq

/-- Result of the retry loop of `_request_json`: the returned value or the
raised error, the number of attempts issued, and the backoff sleeps (in
seconds) between them, in order. -/
structure RequestOutcome where
  result : Except String Unit
  attempts : Nat
  sleeps : List Nat
deriving Repr

/-- The `for attempt in range(1, 5)` body of `_request_json`, with
`responses n` the response observed by attempt `n` and `remaining` the
iterations left.  A status in `expected_status` returns at once (every
body-parsing fallback returns a value, modelled `.ok`); a status in
`RETRY_STATUS_CODES` sleeps `2 ** attempt` and retries while `attempt < 4`;
any other status raises immediately with the body as detail; a connection
error sleeps and retries on the same schedule.  Falling off the loop
returns the empty dict (unreachable from `request_json` below, kept for
fidelity). -/
def request_json_go (method url : String) (responses : Nat → HttpResponse)
    (expected_status : List Nat) : Nat → Nat → RequestOutcome
  | _, 0 => ⟨.ok (), 0, []⟩
  | attempt, Nat.succ remaining =>
      match responses attempt with
      | .reply status _ text =>
          if status ∈ expected_status then ⟨.ok (), 1, []⟩
          else if status ∈ RETRY_STATUS_CODES ∧ attempt < 4 then
            let rest := request_json_go method url responses expected_status
              (attempt + 1) remaining
            ⟨rest.result, rest.attempts + 1, 2 ^ attempt :: rest.sleeps⟩
          else
            ⟨.error (method ++ " " ++ url ++ " failed (" ++ toString status ++ "): "
              ++ text), 1, []⟩
      | .clientError msg =>
          if attempt < 4 then
            let rest := request_json_go method url responses expected_status
              (attempt + 1) remaining
            ⟨rest.result, rest.attempts + 1, 2 ^ attempt :: rest.sleeps⟩
          else ⟨.error (method ++ " " ++ url ++ " failed: " ++ msg), 1, []⟩

/-- `_request_json`: attempts 1 through 4. -/
def request_json (method url : String) (responses : Nat → HttpResponse)
    (expected_status : List Nat) : RequestOutcome :=
  request_json_go method url responses expected_status 1 4

/-- The `for name, method in targets` loop of `run_nuke`: each kind method
is awaited in order with no surrounding `try`, so the first kind whose
method raises aborts the loop — and the summary printed after it; a
completed loop yields every stats object in order. -/
def run_targets : List (Except String ResourceStats) → Except String (List ResourceStats)
  | [] => .ok []
  | .error e :: _ => .error e
  | .ok s :: rest =>
      match run_targets rest with
      | .error e => .error e
      | .ok l => .ok (s :: l)

/-- The stats outcome of one kind run, as the `run_nuke` loop observes it. -/
def kind_outcome : Except String (ResourceStats × List Req) → Except String ResourceStats
  | .error e => .error e
  | .ok r => .ok r.1

/-- The control-flow outcome of a kind run: out of fuel, raised, or
completed — discarding the stats, which the shape of the run cannot depend
on. -/
def runShape : Option (Except String (ResourceStats × List Req)) → Option (Option String)
  | none => none
  | some (.error e) => some (some e)
  | some (.ok _) => some none

/- ----------------------------------------------------------------- -/
/- Concrete scenarios used by individual theorems.                    -/
/- ----------------------------------------------------------------- -/

/-- A backend whose archive transitions all fail with a 409 while every
delete call would succeed. -/
def archiveFailTransport : Transport := fun r =>
  match r with
  | Req.post _ _ => some "POST failed (409): already archived"
  | Req.del _ _ => none

/-- Iterated `record_failure` with a fixed message, one unit per failure. -/
def repeatFailures (s : ResourceStats) (message : String) : Nat → ResourceStats
  | 0 => s
  | Nat.succ n => (repeatFailures s message n).record_failure message 1

/-- A 600-character error message. -/
def longMessage : String := String.mk (List.replicate 600 'x')

/-- A feed backend listing a single inspection whose `id` key is missing. -/
def idlessFeedBackend : String → Except String FeedPage :=
  fun _ => .ok ⟨[⟨""⟩], ""⟩

/-- A backend on which every delete and archive call succeeds. -/
def allOkTransport : Transport := fun _ => none

/-- A full first page of 100 listed actions with distinct ids. -/
def overlapPage1 : List ActionItem :=
  (List.range 100).map (fun i => ⟨"", "", "a" ++ toString i⟩)

/-- An actions listing whose second page repeats the first id of the first
page — the overlapping-pages scenario. -/
def overlapActionsBackend : Nat → Except String (List ActionItem) := fun offset =>
  if offset = 0 then .ok overlapPage1
  else if offset = 100 then .ok [⟨"", "", "a0"⟩]
  else .ok []

/-- 250 listed identifiers. -/
def batch250Ids : List String := (List.range 250).map (fun i => "task-" ++ toString i)

/-- The middle batch of `batch250Ids` under batch size 100. -/
def batch250Mid : List String := (batch250Ids.drop 100).take 100

/-- A backend failing exactly the bulk delete that carries the middle
batch, terminally, and succeeding on every other call. -/
def midBatchFailTransport : Transport := fun r =>
  match r with
  | Req.post _ ids => if ids = batch250Mid then some "500 backend error" else none
  | Req.del _ _ => none

/-- A server replying 429 with `Retry-After: 3` on the first attempt and
succeeding afterwards. -/
def retryAfterBackend : Nat → HttpResponse := fun n =>
  if n = 1 then .reply 429 (some 3) "rate limited" else .reply 200 none "ok"

/-- A feed listing whose requests raise after exhausting their retries. -/
def failingFeedBackend : String → Except String FeedPage :=
  fun _ => .error "GET /feed/inspections failed (500): upstream error"

/-- A credential version missing every subject-user field. -/
def missingUserVersion : CredentialVersion := ⟨"doc-1", "type-1", "", "", "", ""⟩

/-- A companies listing with one company whose `company_id` is missing. -/
def idlessCompaniesBackend : String → Except String CompaniesPage :=
  fun _ => .ok ⟨[⟨"", "", ""⟩], ""⟩

/-- An assets listing returning the same asset in both phases. -/
def repeatAssetsBackend : Option String → String → Except String AssetsPage :=
  fun _ _ => .ok ⟨[⟨"x"⟩], ""⟩

/-- OSHA mock pages: pages 1 through 3 full (100 cases each), page 4 short
(37 cases), no page ever carrying a next token. -/
def hybridPage (n : Nat) : OshaPage :=
  if n ≤ 3 then
    ⟨(List.range 100).map (fun i => ⟨"c" ++ toString n ++ "-" ++ toString i, ""⟩), ""⟩
  else if n = 4 then ⟨(List.range 37).map (fun i => ⟨"c4-" ++ toString i, ""⟩), ""⟩
  else ⟨[], ""⟩

/-- Page-number fetches of the hybrid scenario. -/
def hybridByNumber : Nat → Except String OshaPage := fun n => .ok (hybridPage n)

/-- Token fetches of the hybrid scenario (never reached). -/
def hybridByToken : String → Except String OshaPage := fun _ => .ok ⟨[], ""⟩

/-- A sites listing with one deleted folder and one live folder. -/
def deletedFolderBackend : SitesListPayload → Except String SitesPage :=
  fun _ => .ok ⟨[⟨none, ⟨"f1", some true⟩⟩, ⟨none, ⟨"f2", none⟩⟩], ""⟩

/- ----------------------------------------------------------------- -/
/- Helper lemmas shared by several claims.                            -/
/- ----------------------------------------------------------------- -/

theorem chunkedGo_flatten (f : Nat) (items : List String) (size : Nat)
    (hf : items.length ≤ f) (hs : 0 < size) :
    (chunkedGo f items size).flatten = items := by
  induction f generalizing items with
  | zero =>
      match items with
      | [] => rfl
      | x :: xs => simp at hf
  | succ f ih =>
      match items with
      | [] => rfl
      | x :: xs =>
          have hsz : size ≠ 0 := Nat.pos_iff_ne_zero.mp hs
          have hlen : ((x :: xs).drop size).length ≤ f := by
            simp only [List.length_drop, List.length_cons] at hf ⊢
            omega
          simp only [chunkedGo, if_neg hsz, List.flatten_cons, ih _ hlen]
          exact List.take_append_drop size (x :: xs)

theorem chunked_flatten (items : List String) (size : Nat) (hs : 0 < size) :
    (chunked items size).flatten = items :=
  chunkedGo_flatten items.length items size (Nat.le_refl _) hs

/-- Counter bookkeeping of one `_delete_single` call: it adds exactly one to
`deleted + failed` and leaves `fetched` and `batches` unchanged. -/
theorem delete_single_counts (t : Transport) (path label : String)
    (ap : Option String) (s : ResourceStats) :
    (delete_single t path s label ap).1.deleted + (delete_single t path s label ap).1.failed
        = s.deleted + s.failed + 1
    ∧ (delete_single t path s label ap).1.fetched = s.fetched
    ∧ (delete_single t path s label ap).1.batches = s.batches := by
  unfold delete_single
  cases ap with
  | none =>
      cases h : t (Req.del path []) <;>
        simp [h, ResourceStats.record_failure] <;> omega
  | some a =>
      cases h : t (Req.post a []) with
      | none =>
          cases h2 : t (Req.del path []) <;>
            simp [h, h2, ResourceStats.record_failure] <;> omega
      | some e => simp [h, ResourceStats.record_failure]; omega

/-- Counter bookkeeping of `_delete_with_params`: exactly one outcome. -/
theorem delete_with_params_counts (t : Transport) (path label : String)
    (params : List (String × String)) (s : ResourceStats) :
    (delete_with_params t path params s label).1.deleted
          + (delete_with_params t path params s label).1.failed
        = s.deleted + s.failed + 1
    ∧ (delete_with_params t path params s label).1.fetched = s.fetched := by
  unfold delete_with_params
  cases h : t (Req.del path params) <;>
    simp [h, ResourceStats.record_failure] <;> omega

/-- Counter bookkeeping of `_delete_actions_batch`: the whole batch is
counted deleted or failed. -/
theorem delete_actions_batch_counts (t : Transport) (ids : List String)
    (s : ResourceStats) :
    (delete_actions_batch t ids s).1.deleted + (delete_actions_batch t ids s).1.failed
        = s.deleted + s.failed + ids.length
    ∧ (delete_actions_batch t ids s).1.fetched = s.fetched := by
  unfold delete_actions_batch
  by_cases he : ids.isEmpty
  · have : ids = [] := List.isEmpty_iff.mp he
    subst this
    simp
  · cases h : t (Req.post "/tasks/v1/actions/delete" ids) <;>
      simp [he, h, ResourceStats.record_failure] <;> omega

/-- Counter bookkeeping of a drained batch fan-out: it adds the total size
of the batches to `deleted + failed`. -/
theorem run_action_batches_counts (t : Transport) (batches : List (List String))
    (s : ResourceStats) :
    (run_action_batches t batches s).1.deleted + (run_action_batches t batches s).1.failed
        = s.deleted + s.failed + (batches.map List.length).sum
    ∧ (run_action_batches t batches s).1.fetched = s.fetched := by
  induction batches generalizing s with
  | nil => simp [run_action_batches]
  | cons b rest ih =>
      simp only [run_action_batches, List.map_cons, List.sum_cons]
      have hb := delete_actions_batch_counts t b { s with batches := s.batches + 1 }
      have hr := ih (delete_actions_batch t b { s with batches := s.batches + 1 }).1
      have e1 : ({ s with batches := s.batches + 1 } : ResourceStats).deleted = s.deleted := rfl
      have e2 : ({ s with batches := s.batches + 1 } : ResourceStats).failed = s.failed := rfl
      have e3 : ({ s with batches := s.batches + 1 } : ResourceStats).fetched = s.fetched := rfl
      exact ⟨by omega, by omega⟩

/-- Counter bookkeeping of the inspections task fan-out: one outcome per
truthy id, nothing for the skipped items. -/
theorem inspections_deletes_counts (t : Transport) (items : List FeedItem)
    (s : ResourceStats) :
    (inspections_deletes t items s).1.deleted + (inspections_deletes t items s).1.failed
        = s.deleted + s.failed + (live_ids items).length
    ∧ (inspections_deletes t items s).1.fetched = s.fetched := by
  induction items generalizing s with
  | nil => simp [inspections_deletes, live_ids]
  | cons item rest ih =>
      by_cases hid : item.id = ""
      · simp only [inspections_deletes, if_pos hid, live_ids, List.filterMap_cons,
          live_id, hid, if_pos]
        simpa [live_ids] using ih s
      · simp only [inspections_deletes, if_neg hid, live_ids, List.filterMap_cons,
          live_id, if_neg hid]
        have hd := delete_single_counts t ("/inspections/v1/inspections/" ++ item.id)
          ("inspection " ++ item.id)
          (some ("/inspections/v1/inspections/" ++ item.id ++ "/archive")) s
        have hr := ih (delete_single t ("/inspections/v1/inspections/" ++ item.id) s
          ("inspection " ++ item.id)
          (some ("/inspections/v1/inspections/" ++ item.id ++ "/archive"))).1
        simp only [live_ids] at hr
        simp only [List.length_cons]
        exact ⟨by omega, by omega⟩

/-- When every listed item has a truthy id, no item is skipped. -/
theorem live_ids_length_of_all (items : List FeedItem)
    (h : ∀ i ∈ items, i.id ≠ "") : (live_ids items).length = items.length := by
  induction items with
  | nil => simp [live_ids]
  | cons item rest ih =>
      have h1 : item.id ≠ "" := h item (List.mem_cons_self _ _)
      simp only [live_ids, List.filterMap_cons, live_id, if_neg h1, List.length_cons]
      have := ih (fun i hi => h i (List.mem_cons_of_mem _ hi))
      simp only [live_ids] at this
      omega

theorem live_ids_length_le (items : List FeedItem) :
    (live_ids items).length ≤ items.length :=
  List.length_filterMap_le _ _

/-- The batch sizes produced by `chunked` sum to the number of items. -/
theorem chunked_sizes_sum (ids : List String) (size : Nat) (hs : 0 < size) :
    ((chunked ids size).map List.length).sum = ids.length := by
  have h := congrArg List.length (chunked_flatten ids size hs)
  simpa [List.length_flatten] using h

/-- Invariant of the `delete_inspections` page loop: `deleted + failed`
never exceeds `fetched`, and matches it exactly when every listed item
carries a truthy id. -/
theorem delete_inspections_loop_counts
    (listGet : String → Except String FeedPage) (t : Transport) (base_url : String) :
    ∀ fuel url s tr s2 tr2,
      delete_inspections_loop listGet t base_url fuel url s tr = some (.ok (s2, tr2)) →
      (s.deleted + s.failed ≤ s.fetched → s2.deleted + s2.failed ≤ s2.fetched)
      ∧ ((∀ u p, listGet u = .ok p → ∀ i ∈ p.data, i.id ≠ "") →
          s.deleted + s.failed = s.fetched → s2.deleted + s2.failed = s2.fetched) := by
  intro fuel
  induction fuel with
  | zero =>
      intro url s tr s2 tr2 h
      simp [delete_inspections_loop] at h
  | succ fuel ih =>
      intro url s tr s2 tr2 h
      unfold delete_inspections_loop at h
      cases hg : listGet url with
      | error e => rw [hg] at h; simp at h
      | ok page =>
          rw [hg] at h
          simp only at h
          have hc := inspections_deletes_counts t page.data
            { s with fetched := s.fetched + page.data.length }
          have e1 : ({ s with fetched := s.fetched + page.data.length } :
              ResourceStats).deleted = s.deleted := rfl
          have e2 : ({ s with fetched := s.fetched + page.data.length } :
              ResourceStats).failed = s.failed := rfl
          have e3 : ({ s with fetched := s.fetched + page.data.length } :
              ResourceStats).fetched = s.fetched + page.data.length := rfl
          have hle := live_ids_length_le page.data
          cases hb : build_next_page base_url page.next_page with
          | none =>
              rw [hb] at h
              simp only [Option.some.injEq, Except.ok.injEq, Prod.mk.injEq] at h
              obtain ⟨hs2, -⟩ := h
              subst hs2
              constructor
              · intro hinv; omega
              · intro hall hinv
                have : (live_ids page.data).length = page.data.length :=
                  live_ids_length_of_all page.data (hall url page hg)
                omega
          | some nxt =>
              rw [hb] at h
              have hrec := ih nxt
                (inspections_deletes t page.data
                  { s with fetched := s.fetched + page.data.length }).1
                (tr ++ (inspections_deletes t page.data
                  { s with fetched := s.fetched + page.data.length }).2) s2 tr2 h
              constructor
              · intro hinv
                exact hrec.1 (by omega)
              · intro hall hinv
                have : (live_ids page.data).length = page.data.length :=
                  live_ids_length_of_all page.data (hall url page hg)
                exact hrec.2 hall (by omega)

/-- Invariant of the `delete_actions` offset loop: every extracted id is
counted fetched and lands in exactly one drained batch, so
`deleted + failed` tracks `fetched` exactly. -/
theorem delete_actions_loop_counts
    (listPost : Nat → Except String (List ActionItem)) (t : Transport) :
    ∀ fuel offset s listed tr r,
      delete_actions_loop listPost t fuel offset s listed tr = some (.ok r) →
      s.deleted + s.failed = s.fetched →
      r.stats.deleted + r.stats.failed = r.stats.fetched := by
  intro fuel
  induction fuel with
  | zero =>
      intro offset s listed tr r h
      simp [delete_actions_loop] at h
  | succ fuel ih =>
      intro offset s listed tr r h hinv
      unfold delete_actions_loop at h
      cases hg : listPost offset with
      | error e => rw [hg] at h; simp at h
      | ok actions =>
          rw [hg] at h
          simp only at h
          have hc := run_action_batches_counts t
            (chunked (actions_extract_ids actions) ACTION_DELETE_BATCH_SIZE)
            { s with fetched := s.fetched + (actions_extract_ids actions).length }
          have hsum := chunked_sizes_sum (actions_extract_ids actions)
            ACTION_DELETE_BATCH_SIZE (by decide)
          have e1 : ({ s with fetched := s.fetched + (actions_extract_ids actions).length } :
              ResourceStats).deleted = s.deleted := rfl
          have e2 : ({ s with fetched := s.fetched + (actions_extract_ids actions).length } :
              ResourceStats).failed = s.failed := rfl
          have e3 : ({ s with fetched := s.fetched + (actions_extract_ids actions).length } :
              ResourceStats).fetched = s.fetched + (actions_extract_ids actions).length := rfl
          by_cases hlen : actions.length < ACTION_PAGE_SIZE
          · rw [if_pos hlen] at h
            simp only [Option.some.injEq, Except.ok.injEq] at h
            subst h
            simp only
            omega
          · rw [if_neg hlen] at h
            exact ih (offset + ACTION_PAGE_SIZE) _ _ _ r h (by omega)

/- ----------------------------------------------------------------- -/
/- Claim theorems.                                                    -/
/- ----------------------------------------------------------------- -/

/-- C1, counterexample: with an archive call failing (409) and a delete
call that would succeed, `_delete_single` records the item as failed — not
as a success — and never issues the delete request: the archive error is
caught by the same `except` as the delete, so it does block the delete. -/
theorem archive_failure_not_success_cex :
    (delete_single archiveFailTransport "/inspections/v1/inspections/i1"
        (ResourceStats.init "inspections") "inspection i1"
        (some "/inspections/v1/inspections/i1/archive")).1.deleted = 0
    ∧ (delete_single archiveFailTransport "/inspections/v1/inspections/i1"
        (ResourceStats.init "inspections") "inspection i1"
        (some "/inspections/v1/inspections/i1/archive")).1.failed = 1
    ∧ (delete_single archiveFailTransport "/inspections/v1/inspections/i1"
        (ResourceStats.init "inspections") "inspection i1"
        (some "/inspections/v1/inspections/i1/archive")).2
      = [Req.post "/inspections/v1/inspections/i1/archive" []] := by
  refine ⟨rfl, rfl, rfl⟩

/-- C1 (amended): for archive-then-delete items, a failing archive
transition is caught by the shared exception handler of `_delete_single`:
the delete call is never issued, the item is recorded as failed with the
archive error as its message, and the trace holds the archive request
only.  The outcome is a success only when the archive call and the delete
call both return. -/
theorem archive_failure_blocks_delete (t : Transport) (path label ap : String)
    (stats : ResourceStats) (e : String) (h : t (Req.post ap []) = some e) :
    delete_single t path stats label (some ap)
      = (stats.record_failure (label ++ ": " ++ e) 1, [Req.post ap []]) := by
  simp [delete_single, h]

/-- Witness for C1 at a concrete failing archive. -/
theorem archive_failure_blocks_delete_witness :
    delete_single archiveFailTransport "/assets/v1/assets/x" (ResourceStats.init "assets")
        "asset x" (some "/assets/v1/assets/x/archive")
      = ((ResourceStats.init "assets").record_failure
          ("asset x" ++ ": " ++ "POST failed (409): already archived") 1,
         [Req.post "/assets/v1/assets/x/archive" []]) :=
  archive_failure_blocks_delete archiveFailTransport "/assets/v1/assets/x" "asset x"
    "/assets/v1/assets/x/archive" (ResourceStats.init "assets")
    "POST failed (409): already archived" rfl

/-- C2, counterexample: a feed listing one inspection without an `id`
leaves `fetched = 1` while `deleted + failed = 0` once the kind finishes
(the item is counted fetched, then skipped by `continue`), so
`fetched == deleted + failed` fails for the inspections kind. -/
theorem fetched_counter_mismatch_cex :
    delete_inspections idlessFeedBackend allOkTransport "https://api.example" 1
      = some (.ok (⟨"inspections", 1, 0, 0, 0, []⟩, []))
    ∧ (1 : Nat) ≠ 0 + 0 := by
  exact ⟨rfl, by decide⟩

/-- C2 (amended): once a kind finishes, `deleted + failed ≤ fetched` holds,
with equality whenever every listed item carries a truthy identifier; for
the inspections kind an identifier-less item is counted fetched but is
neither deleted nor failed, while for the actions kind (whose `fetched`
counts only extracted ids) equality holds for every backend and every mix
of delete outcomes. -/
theorem fetched_eq_deleted_plus_failed :
    (∀ listGet t base_url fuel s tr,
        delete_inspections listGet t base_url fuel = some (.ok (s, tr)) →
        s.deleted + s.failed ≤ s.fetched
        ∧ ((∀ u p, listGet u = .ok p → ∀ i ∈ p.data, i.id ≠ "") →
            s.fetched = s.deleted + s.failed))
    ∧ (∀ listPost t fuel r,
        delete_actions listPost t fuel = some (.ok r) →
        r.stats.fetched = r.stats.deleted + r.stats.failed) := by
  constructor
  · intro listGet t base_url fuel s tr h
    have hc := delete_inspections_loop_counts listGet t base_url fuel
      (base_url ++ "/feed/inspections") (ResourceStats.init "inspections") [] s tr h
    exact ⟨hc.1 (by simp [ResourceStats.init]),
      fun hall => (hc.2 hall (by simp [ResourceStats.init])).symm⟩
  · intro listPost t fuel r h
    exact (delete_actions_loop_counts listPost t fuel 0
      (ResourceStats.init "actions") [] [] r h (by simp [ResourceStats.init])).symm

/-- Witness for C2 at a concrete backend: one well-formed inspection and one
well-formed action, all deletes succeeding. -/
theorem fetched_eq_deleted_plus_failed_witness :
    (∃ s tr, delete_inspections (fun _ => .ok ⟨[⟨"i1"⟩], ""⟩) allOkTransport
        "https://api.example" 1 = some (.ok (s, tr))
      ∧ s.deleted + s.failed ≤ s.fetched ∧ s.fetched = s.deleted + s.failed)
    ∧ (∃ r, delete_actions (fun _ => .ok [⟨"", "", "a1"⟩]) allOkTransport 1
        = some (.ok r)
      ∧ r.stats.fetched = r.stats.deleted + r.stats.failed) := by
  constructor
  · refine ⟨⟨"inspections", 1, 1, 0, 0, []⟩,
      [Req.post "/inspections/v1/inspections/i1/archive" [],
       Req.del "/inspections/v1/inspections/i1" []], rfl, ?_, ?_⟩
    · exact (fetched_eq_deleted_plus_failed.1 (fun _ => .ok ⟨[⟨"i1"⟩], ""⟩)
        allOkTransport "https://api.example" 1 _ _ rfl).1
    · exact (fetched_eq_deleted_plus_failed.1 (fun _ => .ok ⟨[⟨"i1"⟩], ""⟩)
        allOkTransport "https://api.example" 1 _ _ rfl).2
        (by intro u p hp i hi
            cases hp
            simp at hi
            subst hi
            decide)
  · refine ⟨⟨⟨"actions", 1, 1, 0, 1, []⟩, ["a1"],
      [Req.post "/tasks/v1/actions/delete" ["a1"]]⟩, rfl, ?_⟩
    exact fetched_eq_deleted_plus_failed.2 (fun _ => .ok [⟨"", "", "a1"⟩])
      allOkTransport 1 _ rfl

/-- C3, counterexample: the actions kind has no seen-set — when a second
offset page repeats an id of the first page, the repeated id is carried by
two separate bulk delete calls, so it is submitted for deletion twice. -/
theorem duplicate_submission_cex :
    delete_actions overlapActionsBackend allOkTransport 3
      = some (.ok ⟨⟨"actions", 101, 101, 0, 2, []⟩,
          actions_extract_ids overlapPage1 ++ ["a0"],
          [Req.post "/tasks/v1/actions/delete" (actions_extract_ids overlapPage1),
           Req.post "/tasks/v1/actions/delete" ["a0"]]⟩)
    ∧ ((submitted_action_ids
          [Req.post "/tasks/v1/actions/delete" (actions_extract_ids overlapPage1),
           Req.post "/tasks/v1/actions/delete" ["a0"]]).count "a0") = 2 := by
  exact ⟨rfl, by decide⟩

/-- C7, counterexample: `record_failure` applies no truncation and no cap —
after 100 failures each carrying a 600-character message, the stats hold
100 error entries, every one stored at its full 600-character length. -/
theorem record_failure_unbounded_cex :
    (repeatFailures (ResourceStats.init "inspections") longMessage 100).errors.length = 100
    ∧ ((repeatFailures (ResourceStats.init "inspections") longMessage 100).errors.all
        (fun e => e.length == 600)) = true := by
  exact ⟨by decide, by decide⟩

/-- C7 (amended): `record_failure` stores the error message verbatim — no
truncation — and appends one entry per recorded failure to an uncapped
list, so both the stored string length and the list length grow without
bound under systemic failure (only the console summary trims its display
to 5 entries). -/
theorem record_failure_stores_verbatim (s : ResourceStats) (message : String)
    (count : Nat) :
    (s.record_failure message count).errors = s.errors ++ [message]
    ∧ (s.record_failure message count).errors.length = s.errors.length + 1
    ∧ (s.record_failure message count).failed = s.failed + count := by
  simp [ResourceStats.record_failure]

/-- C9: 250 identifiers with batch size 100 chunk into exactly the three
slices of sizes 100, 100 and 50, in order; when the bulk call of the middle
batch fails terminally, its 100 identifiers are all counted failed together
(one error entry) while the 150 identifiers of the other two batches are
counted deleted. -/
theorem batch_chunking_and_batch_failure :
    (chunked batch250Ids 100).map List.length = [100, 100, 50]
    ∧ chunked batch250Ids 100
        = [batch250Ids.take 100, batch250Mid, batch250Ids.drop 200]
    ∧ (run_action_batches midBatchFailTransport (chunked batch250Ids 100)
        (ResourceStats.init "actions")).1.deleted = 150
    ∧ (run_action_batches midBatchFailTransport (chunked batch250Ids 100)
        (ResourceStats.init "actions")).1.failed = 100
    ∧ (run_action_batches midBatchFailTransport (chunked batch250Ids 100)
        (ResourceStats.init "actions")).1.batches = 3
    ∧ (run_action_batches midBatchFailTransport (chunked batch250Ids 100)
        (ResourceStats.init "actions")).1.errors.length = 1 := by
  refine ⟨by decide, by decide, by decide, by decide, by decide, by decide⟩

/-- C4, counterexample: on a 429 carrying `Retry-After: 3` followed by a
success, the retry loop issues exactly 2 attempts but sleeps only 2 seconds
(the exponential `2 ** 1`), less than the server-directed 3 — the
`Retry-After` value is never read. -/
theorem retry_after_ignored_cex :
    request_json "GET" "/incidents/v1/investigations" retryAfterBackend
        [200, 201, 202, 204]
      = ⟨.ok (), 2, [2]⟩
    ∧ ¬(3 ≤ (2 : Nat)) := ⟨rfl, by decide⟩

/-- C4 (amended): `_request_json` never reads `Retry-After` — the delay
before a retry is always the exponential `2 ** attempt` schedule — so a
single 429, whatever `Retry-After` value it carries, followed by a success
yields exactly 2 attempts with a single sleep of 2 seconds. -/
theorem exponential_backoff_ignores_retry_after (method url text : String)
    (ra : Option Nat) :
    request_json method url
        (fun n => if n = 1 then HttpResponse.reply 429 ra text
          else HttpResponse.reply 200 none "ok")
        [200, 201, 202, 204]
      = ⟨.ok (), 2, [2]⟩ := rfl

/-- C6, counterexample: a listed company with no `company_id` is counted
fetched, but the kind finishes with zero failures, an empty error list and
no delete call — the item is silently skipped, not recorded failed with a
missing-identifiers message. -/
theorem company_missing_id_silent_skip_cex :
    delete_companies idlessCompaniesBackend allOkTransport 1
      = some (.ok (⟨"companies", 1, 0, 0, 0, []⟩, [])) := rfl

/-- C6 (amended): the credentials kind behaves as specified — when any key
field among the document id, the document type and the subject user is
falsy, the network call is skipped and a failure whose message begins with
"credential missing identifiers" is recorded — while the companies kind
does not: a missing `company_id` silently skips the item (no request, no
failure), and a missing `company_type_id` does not block the delete, which
is issued with `company_id` as the only query key. -/
theorem composite_key_missing_fields :
    (∀ t v stats, ¬(v.document_id ≠ "" ∧ v.docType ≠ "" ∧ v.userId ≠ "") →
        credentials_process_version t v stats
          = (stats.record_failure
              ("credential missing identifiers: doc=" ++ v.document_id
                ++ ", type=" ++ v.docType ++ ", user=" ++ v.userId) 1, []))
    ∧ (∀ t c stats, c.company_id = "" →
        companies_process_company t c stats = (stats, []))
    ∧ (∀ t c stats, c.company_id ≠ "" → c.companyType = "" →
        (companies_process_company t c stats).2
          = [Req.del "/companies/v1beta/company" [("company_id", c.company_id)]]) := by
  refine ⟨?_, ?_, ?_⟩
  · intro t v stats h
    simp [credentials_process_version, h]
  · intro t c stats h
    simp [companies_process_company, h]
  · intro t c stats h1 h2
    unfold companies_process_company delete_with_params
    rw [if_neg h1, h2]
    simp only [ne_eq, not_true_eq_false, if_false]
    cases ht : t (Req.del "/companies/v1beta/company" [("company_id", c.company_id)]) <;>
      simp [ht]

/-- Witness for C6: a version missing the subject user, a company missing
its id, and a company missing only its type. -/
theorem composite_key_missing_fields_witness :
    credentials_process_version allOkTransport missingUserVersion
        (ResourceStats.init "credentials")
      = ((ResourceStats.init "credentials").record_failure
          ("credential missing identifiers: doc=" ++ "doc-1" ++ ", type=" ++ "type-1"
            ++ ", user=" ++ "") 1, [])
    ∧ companies_process_company allOkTransport ⟨"", "", ""⟩ (ResourceStats.init "companies")
      = (ResourceStats.init "companies", [])
    ∧ (companies_process_company allOkTransport ⟨"c1", "", ""⟩
        (ResourceStats.init "companies")).2
      = [Req.del "/companies/v1beta/company" [("company_id", "c1")]] :=
  ⟨composite_key_missing_fields.1 allOkTransport missingUserVersion
      (ResourceStats.init "credentials") (by decide),
   composite_key_missing_fields.2.1 allOkTransport ⟨"", "", ""⟩
      (ResourceStats.init "companies") rfl,
   composite_key_missing_fields.2.2 allOkTransport ⟨"c1", "", ""⟩
      (ResourceStats.init "companies") (by decide) rfl⟩

/-- One dedup pass grows the seen-set by exactly the fresh ids, the fresh
ids are mutually distinct, and none of them was seen before. -/
theorem assets_dedup_spec (assets : List AssetItem) :
    ∀ seen, (assets_dedup seen assets).1 = seen ++ (assets_dedup seen assets).2
      ∧ (assets_dedup seen assets).2.Nodup
      ∧ ∀ x ∈ (assets_dedup seen assets).2, x ∉ seen := by
  induction assets with
  | nil => intro seen; simp [assets_dedup]
  | cons a rest ih =>
      intro seen
      by_cases hc : a.id = "" ∨ a.id ∈ seen
      · simp only [assets_dedup, if_pos hc]
        exact ih seen
      · have hne : a.id ≠ "" := fun hh => hc (Or.inl hh)
        have hns : a.id ∉ seen := fun hh => hc (Or.inr hh)
        simp only [assets_dedup, if_neg hc]
        have ihr := ih (seen ++ [a.id])
        refine ⟨?_, ?_, ?_⟩
        · show (assets_dedup (seen ++ [a.id]) rest).1
            = seen ++ (a.id :: (assets_dedup (seen ++ [a.id]) rest).2)
          rw [ihr.1, List.append_assoc]
          rfl
        · show (a.id :: (assets_dedup (seen ++ [a.id]) rest).2).Nodup
          rw [List.nodup_cons]
          exact ⟨fun hmem => ihr.2.2 a.id hmem (by simp), ihr.2.1⟩
        · show ∀ x ∈ a.id :: (assets_dedup (seen ++ [a.id]) rest).2, x ∉ seen
          intro x hx
          rcases List.mem_cons.mp hx with hh | hh
          · subst hh; exact hns
          · intro hxs
            exact ihr.2.2 x hh (List.mem_append_left _ hxs)

/-- Invariant of one assets listing phase: when the seen-set and the
submitted ids agree and are duplicate-free on entry, they agree and stay
duplicate-free on exit. -/
theorem delete_assets_phase_nodup
    (listPost : Option String → String → Except String AssetsPage) (t : Transport)
    (sf : Option String) :
    ∀ fuel token seen stats submitted trace out,
      delete_assets_phase listPost t sf fuel token seen stats submitted trace
        = some (.ok out) →
      seen = submitted → submitted.Nodup →
      out.1 = out.2.2.1 ∧ out.2.2.1.Nodup := by
  intro fuel
  induction fuel with
  | zero =>
      intro token seen stats submitted trace out h
      simp [delete_assets_phase] at h
  | succ fuel ih =>
      intro token seen stats submitted trace out h hseen hnd
      unfold delete_assets_phase at h
      cases hg : listPost sf token with
      | error e => rw [hg] at h; simp at h
      | ok page =>
          rw [hg] at h
          simp only at h
          have hd := assets_dedup_spec page.assets seen
          have hnd2 : (submitted ++ (assets_dedup seen page.assets).2).Nodup := by
            rw [List.nodup_append]
            exact ⟨hnd, hd.2.1, fun x hx hx2 => hd.2.2 x hx2 (hseen ▸ hx)⟩
          have hseen2 : (assets_dedup seen page.assets).1
              = submitted ++ (assets_dedup seen page.assets).2 := by
            rw [hd.1, hseen]
          by_cases htok : page.next_page_token = ""
          · rw [if_pos htok] at h
            simp only [Option.some.injEq, Except.ok.injEq] at h
            subst h
            exact ⟨hseen2, hnd2⟩
          · rw [if_neg htok] at h
            exact ih page.next_page_token _ _ _ _ out h hseen2 hnd2

/-- C3 (amended): only the assets kind deduplicates, via a per-run seen-set
kept across both listing phases: in a finished assets run each identifier
is submitted for deletion at most once, however often the listings repeat
it; the actions kind has no seen-set and submits every repeated occurrence
again (see the counterexample). -/
theorem assets_no_duplicate_submission
    (listPost : Option String → String → Except String AssetsPage) (t : Transport)
    (fuel : Nat) (r : AssetsRun)
    (h : delete_assets listPost t fuel = some (.ok r)) :
    r.submitted.Nodup ∧ ∀ id, r.submitted.count id ≤ 1 := by
  unfold delete_assets at h
  cases h1 : delete_assets_phase listPost t none fuel "" []
      (ResourceStats.init "assets") [] [] with
  | none => rw [h1] at h; simp at h
  | some e1 =>
      rw [h1] at h
      cases e1 with
      | error e => simp at h
      | ok p1 =>
          obtain ⟨seen1, stats1, submitted1, trace1⟩ := p1
          have hp1 := delete_assets_phase_nodup listPost t none fuel "" []
            (ResourceStats.init "assets") [] [] _ h1 rfl List.nodup_nil
          simp only at h hp1
          cases h2 : delete_assets_phase listPost t (some "ASSET_STATE_ARCHIVED") fuel ""
              seen1 stats1 submitted1 trace1 with
          | none => rw [h2] at h; simp at h
          | some e2 =>
              rw [h2] at h
              cases e2 with
              | error e => simp at h
              | ok p2 =>
                  obtain ⟨seen2, stats2, submitted2, trace2⟩ := p2
                  have hp2 := delete_assets_phase_nodup listPost t
                    (some "ASSET_STATE_ARCHIVED") fuel "" seen1 stats1 submitted1 trace1
                    _ h2 hp1.1 hp1.2
                  simp only [Option.some.injEq, Except.ok.injEq] at h
                  subst h
                  exact ⟨hp2.2, fun id => List.nodup_iff_count_le_one.mp hp2.2 id⟩

/-- Witness for C3 at a backend listing the same asset in both phases: the
finished run submitted it once. -/
theorem assets_no_duplicate_submission_witness :
    (["x"] : List String).Nodup ∧ (["x"] : List String).count "x" ≤ 1 := by
  have h := assets_no_duplicate_submission repeatAssetsBackend allOkTransport 1
    ⟨⟨"assets", 1, 1, 0, 0, []⟩, ["x"],
     [Req.post "/assets/v1/assets/x/archive" [], Req.del "/assets/v1/assets/x" []]⟩ rfl
  exact ⟨h.1, h.2 "x"⟩

/-- `sites_req_ids` distributes over trace concatenation. -/
theorem sites_req_ids_append (t1 t2 : List Req) :
    sites_req_ids (t1 ++ t2) = sites_req_ids t1 ++ sites_req_ids t2 := by
  simp [sites_req_ids]

/-- The folder-delete call of one batch carries exactly that batch. -/
theorem delete_site_batch_req_ids (t : Transport) (b : List String)
    (s : ResourceStats) (c : Bool) :
    sites_req_ids (delete_site_batch t b s c).2 = b := by
  unfold delete_site_batch
  by_cases he : b.isEmpty
  · have hb : b = [] := List.isEmpty_iff.mp he
    subst hb
    simp [sites_req_ids]
  · have hfm : ∀ bs : List String,
        (bs.map (fun f => ("folder_ids", f))).filterMap
          (fun q : String × String =>
            if q.1 = "folder_ids" then some q.2 else none) = bs := by
      intro bs
      induction bs with
      | nil => simp
      | cons x xs ihx => simp [ihx]
    simp only [he, Bool.false_eq_true, if_false]
    cases ht : t (Req.del "/directory/v1/folders"
        (("cascade_up", if c then "true" else "false")
          :: b.map (fun f => ("folder_ids", f)))) <;>
      simp [ht, sites_req_ids, hfm]

/-- The drained batch fan-out issues calls carrying exactly the chunked
ids, in order. -/
theorem run_site_batches_req_ids (t : Transport) (batches : List (List String))
    (s : ResourceStats) :
    sites_req_ids (run_site_batches t batches s).2 = batches.flatten := by
  induction batches generalizing s with
  | nil => simp [run_site_batches, sites_req_ids]
  | cons b rest ih =>
      simp only [run_site_batches, List.flatten_cons]
      rw [sites_req_ids_append, delete_site_batch_req_ids, ih]

/-- Counter bookkeeping of `_delete_site_batch`: `fetched` is untouched. -/
theorem delete_site_batch_counts (t : Transport) (b : List String)
    (s : ResourceStats) (c : Bool) :
    (delete_site_batch t b s c).1.fetched = s.fetched := by
  unfold delete_site_batch
  by_cases he : b.isEmpty
  · simp [he]
  · simp only [he, Bool.false_eq_true, if_false]
    cases ht : t (Req.del "/directory/v1/folders"
        (("cascade_up", if c then "true" else "false")
          :: b.map (fun f => ("folder_ids", f)))) <;>
      simp [ht, ResourceStats.record_failure]

/-- Counter bookkeeping of the sites batch fan-out: `fetched` is
untouched. -/
theorem run_site_batches_counts (t : Transport) (batches : List (List String))
    (s : ResourceStats) :
    (run_site_batches t batches s).1.fetched = s.fetched := by
  induction batches generalizing s with
  | nil => simp [run_site_batches]
  | cons b rest ih =>
      simp only [run_site_batches]
      rw [ih, delete_site_batch_counts]

/-- Invariant of the sites page loop: the submitted ids are the kept ids of
the listing so far, `fetched` counts them, and the issued folder-delete
calls carry exactly them. -/
theorem delete_sites_loop_spec
    (listSearch : SitesListPayload → Except String SitesPage) (t : Transport) :
    ∀ fuel token stats listed submitted trace r,
      delete_sites_loop listSearch t fuel token stats listed submitted trace
        = some (.ok r) →
      submitted = site_live_ids listed →
      stats.fetched = submitted.length →
      sites_req_ids trace = submitted →
      r.submitted = site_live_ids r.listed
      ∧ r.stats.fetched = r.submitted.length
      ∧ sites_req_ids r.trace = r.submitted := by
  intro fuel
  induction fuel with
  | zero =>
      intro token stats listed submitted trace r h
      simp [delete_sites_loop] at h
  | succ fuel ih =>
      intro token stats listed submitted trace r h hsub hlen htr
      unfold delete_sites_loop at h
      cases hg : listSearch (sites_list_payload token) with
      | error e => rw [hg] at h; simp at h
      | ok page =>
          rw [hg] at h
          simp only at h
          have hrb := run_site_batches_req_ids t
            (chunked (site_live_ids page.folders) SITE_DELETE_BATCH_SIZE)
            { stats with fetched := stats.fetched + (site_live_ids page.folders).length }
          have hcf := chunked_flatten (site_live_ids page.folders)
            SITE_DELETE_BATCH_SIZE (by decide)
          have hsub2 : submitted ++ site_live_ids page.folders
              = site_live_ids (listed ++ page.folders) := by
            rw [hsub, site_live_ids, site_live_ids, site_live_ids, List.filterMap_append]
          have hfet : ({ stats with
              fetched := stats.fetched + (site_live_ids page.folders).length } :
                ResourceStats).fetched
              = (submitted ++ site_live_ids page.folders).length := by
            simp [hlen]
          have hfet2 := run_site_batches_counts t
            (chunked (site_live_ids page.folders) SITE_DELETE_BATCH_SIZE)
            { stats with fetched := stats.fetched + (site_live_ids page.folders).length }
          have htr2 : sites_req_ids (trace
              ++ (run_site_batches t
                  (chunked (site_live_ids page.folders) SITE_DELETE_BATCH_SIZE)
                  { stats with fetched :=
                      stats.fetched + (site_live_ids page.folders).length }).2)
              = submitted ++ site_live_ids page.folders := by
            rw [sites_req_ids_append, htr, hrb, hcf]
          by_cases htok : page.next_page_token = ""
          · rw [if_pos htok] at h
            simp only [Option.some.injEq, Except.ok.injEq] at h
            subst h
            refine ⟨hsub2, ?_, htr2⟩
            show (run_site_batches t
                (chunked (site_live_ids page.folders) SITE_DELETE_BATCH_SIZE)
                { stats with fetched :=
                    stats.fetched + (site_live_ids page.folders).length }).1.fetched
              = (submitted ++ site_live_ids page.folders).length
            rw [hfet2]
            exact hfet
          · rw [if_neg htok] at h
            refine ih page.next_page_token _ _ _ _ r h hsub2 ?_ htr2
            rw [hfet2]
            exact hfet

/-- C10: the listing request always asks the backend for deleted folders
(`include_deleted_folders=True`), yet the client filters them out — in a
finished sites run the submitted ids are exactly the ids of the listed
entries that are truthy and not `deleted == True`, `fetched` counts exactly
those, and the bulk folder-delete calls carry exactly those ids; an entry
whose folder data carries `deleted == True` contributes nothing. -/
theorem deleted_folders_excluded :
    (∀ page_token, (sites_list_payload page_token).include_deleted_folders = true)
    ∧ (∀ listSearch t fuel r, delete_sites listSearch t fuel = some (.ok r) →
        r.submitted = site_live_ids r.listed
        ∧ r.stats.fetched = r.submitted.length
        ∧ sites_req_ids r.trace = r.submitted) := by
  refine ⟨fun _ => rfl, fun listSearch t fuel r h => ?_⟩
  exact delete_sites_loop_spec listSearch t fuel "" (ResourceStats.init "sites")
    [] [] [] r h rfl rfl rfl

/-- Witness for C10 at a listing holding one deleted and one live folder:
only the live folder is submitted, fetched and carried by the bulk call. -/
theorem deleted_folders_excluded_witness :
    (sites_list_payload "").include_deleted_folders = true
    ∧ ((⟨⟨"sites", 1, 1, 0, 1, []⟩,
        [⟨none, ⟨"f1", some true⟩⟩, ⟨none, ⟨"f2", none⟩⟩], ["f2"],
        [Req.del "/directory/v1/folders"
          [("cascade_up", "true"), ("folder_ids", "f2")]]⟩ : SitesRun).submitted
      = site_live_ids [⟨none, ⟨"f1", some true⟩⟩, ⟨none, ⟨"f2", none⟩⟩]) :=
  ⟨deleted_folders_excluded.1 "",
   (deleted_folders_excluded.2 deletedFolderBackend allOkTransport 1
      ⟨⟨"sites", 1, 1, 0, 1, []⟩,
       [⟨none, ⟨"f1", some true⟩⟩, ⟨none, ⟨"f2", none⟩⟩], ["f2"],
       [Req.del "/directory/v1/folders"
         [("cascade_up", "true"), ("folder_ids", "f2")]]⟩ rfl).1⟩

/-- The control-flow shape of the inspections page loop does not depend on
the delete outcomes (nor on the stats or trace accumulators): only the
listing responses steer it. -/
theorem delete_inspections_loop_shape (listGet : String → Except String FeedPage)
    (base_url : String) :
    ∀ fuel url t1 t2 s1 tr1 s2 tr2,
      runShape (delete_inspections_loop listGet t1 base_url fuel url s1 tr1)
        = runShape (delete_inspections_loop listGet t2 base_url fuel url s2 tr2) := by
  intro fuel
  induction fuel with
  | zero => intro url t1 t2 s1 tr1 s2 tr2; rfl
  | succ fuel ih =>
      intro url t1 t2 s1 tr1 s2 tr2
      unfold delete_inspections_loop
      cases hg : listGet url with
      | error e => rfl
      | ok page =>
          simp only
          cases hb : build_next_page base_url page.next_page with
          | none => rfl
          | some nxt => exact ih nxt t1 t2 _ _ _ _

/-- C5, counterexample: a kind whose first listing call raises (retries
exhausted) makes the kind method itself raise, and the `run_nuke` loop —
having no `try` around the kind methods — propagates it: the run stops
with the error instead of completing, and the kinds after the failing one
produce no stats and no summary. -/
theorem listing_failure_aborts_run_cex :
    delete_inspections failingFeedBackend allOkTransport "https://api.example" 1
      = some (.error "GET /feed/inspections failed (500): upstream error")
    ∧ run_targets
        [.error "GET /feed/inspections failed (500): upstream error",
         .ok (ResourceStats.init "assets")]
      = .error "GET /feed/inspections failed (500): upstream error" := ⟨rfl, rfl⟩

/-- C5 (amended): per-item delete failures are local — whatever the delete
outcomes, a kind run that completed under one transport completes under
any other, so failed deletes never abort the kind — and a run whose kinds
all complete yields the full summary; but a kind whose listing call raises
propagates out of the `run_nuke` loop: the run stops at the first raising
kind and no summary is produced. -/
theorem failure_propagation :
    (∀ listGet base_url fuel t1 t2 x,
        delete_inspections listGet t1 base_url fuel = some (.ok x) →
        ∃ y, delete_inspections listGet t2 base_url fuel = some (.ok y))
    ∧ (∀ runs : List (Except String ResourceStats),
        (∀ a ∈ runs, ∃ s, a = .ok s) →
        ∃ l, run_targets runs = .ok l ∧ l.length = runs.length)
    ∧ (∀ pre post : List (Except String ResourceStats), ∀ e,
        (∀ a ∈ pre, ∃ s, a = .ok s) →
        run_targets (pre ++ .error e :: post) = .error e) := by
  refine ⟨?_, ?_, ?_⟩
  · intro listGet base_url fuel t1 t2 x h
    have hs := delete_inspections_loop_shape listGet base_url fuel
      (base_url ++ "/feed/inspections") t1 t2 (ResourceStats.init "inspections") []
      (ResourceStats.init "inspections") []
    unfold delete_inspections at h ⊢
    rw [h] at hs
    cases h2 : delete_inspections_loop listGet t2 base_url fuel
        (base_url ++ "/feed/inspections") (ResourceStats.init "inspections") [] with
    | none => rw [h2] at hs; simp [runShape] at hs
    | some r2 =>
        rw [h2] at hs
        cases r2 with
        | error e => simp [runShape] at hs
        | ok y => exact ⟨y, rfl⟩
  · intro runs hok
    induction runs with
    | nil => exact ⟨[], rfl, rfl⟩
    | cons a rest ih =>
        obtain ⟨s, rfl⟩ := hok a (List.mem_cons_self _ _)
        obtain ⟨l, hl, hlen⟩ := ih (fun b hb => hok b (List.mem_cons_of_mem _ hb))
        refine ⟨s :: l, ?_, by simp [hlen]⟩
        simp only [run_targets, hl]
  · intro pre post e hok
    induction pre with
    | nil => rfl
    | cons a rest ih =>
        obtain ⟨s, rfl⟩ := hok a (List.mem_cons_self _ _)
        have hr := ih (fun b hb => hok b (List.mem_cons_of_mem _ hb))
        have hr2 : run_targets (rest.append (Except.error e :: post)) = Except.error e := hr
        simp only [List.cons_append, run_targets, hr2]

/-- Witness for C5: a completed kind stays completed when every delete
fails instead of succeeding; a one-kind all-ok run summarizes; a run with a
raising kind at position 2 aborts with its error. -/
theorem failure_propagation_witness :
    (∃ y, delete_inspections idlessFeedBackend archiveFailTransport
        "https://api.example" 1 = some (.ok y))
    ∧ (∃ l, run_targets [.ok (ResourceStats.init "actions")] = .ok l ∧ l.length = 1)
    ∧ run_targets [.ok (ResourceStats.init "actions"),
        .error "GET /feed/inspections failed (500): upstream error"]
      = .error "GET /feed/inspections failed (500): upstream error" :=
  ⟨failure_propagation.1 idlessFeedBackend "https://api.example" 1 allOkTransport
      archiveFailTransport (⟨"inspections", 1, 0, 0, 0, []⟩, []) rfl,
   failure_propagation.2.1 [.ok (ResourceStats.init "actions")]
      (by intro a ha
          simp only [List.mem_singleton] at ha
          exact ⟨ResourceStats.init "actions", ha⟩),
   failure_propagation.2.2 [.ok (ResourceStats.init "actions")] []
      "GET /feed/inspections failed (500): upstream error"
      (by intro a ha
          simp only [List.mem_singleton] at ha
          exact ⟨ResourceStats.init "actions", ha⟩)⟩

/-- C8: on the hybrid mock — full pages 1 through 3, short page 4, no
token anywhere — `delete_osha_cases` (at the default listing concurrency)
processes exactly the items of pages 1, 2, 3 and 4 in page order, issues
one delete per truthy case id of those pages, and stops without a single
token fetch: every recorded event is a page-number fetch. -/
theorem hybrid_pagination_stops_after_short_page :
    delete_osha_cases hybridByNumber hybridByToken allOkTransport LIST_CONCURRENCY 10
      = some (.ok ⟨⟨"osha_cases", 337, 337, 0, 0, []⟩,
          [OshaEvent.pageFetch 1 (osha_extract_ids (hybridPage 1).results),
           OshaEvent.pageFetch 2 (osha_extract_ids (hybridPage 2).results),
           OshaEvent.pageFetch 3 (osha_extract_ids (hybridPage 3).results),
           OshaEvent.pageFetch 4 (osha_extract_ids (hybridPage 4).results)],
          (osha_extract_ids (hybridPage 1).results
            ++ osha_extract_ids (hybridPage 2).results
            ++ osha_extract_ids (hybridPage 3).results
            ++ osha_extract_ids (hybridPage 4).results).map
            (fun id => Req.del ("/incidents/v1/osha/cases/" ++ id) [])⟩)
    ∧ ([OshaEvent.pageFetch 1 (osha_extract_ids (hybridPage 1).results),
        OshaEvent.pageFetch 2 (osha_extract_ids (hybridPage 2).results),
        OshaEvent.pageFetch 3 (osha_extract_ids (hybridPage 3).results),
        OshaEvent.pageFetch 4 (osha_extract_ids (hybridPage 4).results)].all
        (fun e => match e with
          | OshaEvent.pageFetch _ _ => true
          | OshaEvent.tokenFetch _ _ => false)) = true := by
  exact ⟨rfl, rfl⟩

end NukeAccount
